import Mathlib

/-!
Shallow embedding of the King Albert patience rule engine.

The modular engine lives in src/src/board.rs (`Board`, `Foundation`,
`Column`, `SpotInHand`, `Movement`, the `Location` trait); the legacy
near-duplicate engine lives in src/src/main.rs.  The value types `Card`,
`Suit`, `Color` and `Rank` are translated from src/src/main.rs (the
`card` module used by board.rs is not in the sources, but main.rs holds
the same types and the spec describes them identically).  Rust `u8`
ranks stay in the 1..13 domain everywhere in this program, so `Rank` is
embedded as `Nat`; functions that panic in Rust return `Option` here
(`none` = panic).
-/

namespace KingAlbert

/-- Color of a suit (src/src/main.rs, `enum Color`). -/
inductive Color
| Black
| Red
deriving DecidableEq, Repr

/-- The four suits (src/src/main.rs, `enum Suit`). -/
inductive Suit
| Spades
| Hearts
| Diamonds
| Clubs
deriving DecidableEq, Repr

/-- `Suit::color` (src/src/main.rs lines 23-28): Spades/Clubs black, Hearts/Diamonds red. -/
def Suit.color : Suit → Color
| .Spades => .Black
| .Clubs => .Black
| .Hearts => .Red
| .Diamonds => .Red

/-- `type Rank = u8` (src/src/main.rs line 42); ranks in this program stay in 1..13. -/
abbrev Rank := Nat

/-- `MAX_RANK` from the missing `card` module; the spec fixes the maximum rank at 13. -/
def MAX_RANK : Rank := 13

/-- A card: suit and rank (src/src/main.rs, `struct Card`). -/
structure Card where
  suit : Suit
  rank : Rank
deriving DecidableEq, Repr

/-- `Card::color` (src/src/main.rs lines 51-53). -/
def Card.color (c : Card) : Color := c.suit.color

/-- Modelled from the spec: `VictoryState` = `{Ongoing, Won}` (spec section 3); the
`victory_state` module is not among the sources. -/
inductive VictoryState
| Ongoing
| Won
deriving DecidableEq, Repr

/-- A foundation: its suit and optional top rank (src/src/board.rs lines 147-150). -/
structure Foundation where
  suit : Suit
  top_rank : Option Rank
deriving DecidableEq, Repr

/-- `Foundation::new` (src/src/board.rs lines 153-155). -/
def Foundation.new (s : Suit) : Foundation := ⟨s, none⟩

/-- `Foundation::next_rank` (src/src/board.rs lines 156-158): `top_rank.unwrap_or(0) + 1`. -/
def Foundation.next_rank (f : Foundation) : Rank := f.top_rank.getD 0 + 1

/-- `Foundation::can_receive` (src/src/board.rs lines 171-173). -/
def Foundation.can_receive (f : Foundation) (card : Card) : Bool :=
  decide (card.suit = f.suit) && decide (card.rank = f.next_rank)

/-- `Foundation::receive` (src/src/board.rs lines 174-176). -/
def Foundation.receive (f : Foundation) (card : Card) : Foundation :=
  { f with top_rank := some card.rank }

/-- `Foundation::can_give_card` (src/src/board.rs lines 177-179): always false. -/
def Foundation.can_give_card (_ : Foundation) : Bool := false

/-- `Foundation::give_card` (src/src/board.rs lines 180-188); panics (`none`) when empty. -/
def Foundation.give_card (f : Foundation) : Option (Card × Foundation) :=
  match f.top_rank with
  | none => none
  | some rank => some (⟨f.suit, rank⟩, { f with top_rank := some (rank - 1) })

/-- `Foundation::active_card` (src/src/board.rs lines 189-194). -/
def Foundation.active_card (f : Foundation) : Option Card :=
  match f.top_rank with
  | none => none
  | some rank => some ⟨f.suit, rank⟩

/-- A column: ordered card sequence, last element on top (src/src/board.rs lines 197-199). -/
structure Column where
  cards : List Card
deriving DecidableEq, Repr

/-- `Column::new` (src/src/board.rs lines 202-204); capacity is irrelevant to contents. -/
def Column.new : Column := ⟨[]⟩

/-- `Column::can_give_card` (src/src/board.rs lines 214-216). -/
def Column.can_give_card (c : Column) : Bool := !c.cards.isEmpty

/-- `Column::active_card` (src/src/board.rs lines 230-235): the last element, if any. -/
def Column.active_card (c : Column) : Option Card := c.cards.getLast?

/-- `Column::give_card` (src/src/board.rs lines 217-219): pop the last element; panics
(`none`) when empty. -/
def Column.give_card (c : Column) : Option (Card × Column) :=
  match c.cards.getLast? with
  | none => none
  | some card => some (card, ⟨c.cards.dropLast⟩)

/-- `Column::can_receive` (src/src/board.rs lines 220-226). -/
def Column.can_receive (c : Column) (card : Card) : Bool :=
  match c.active_card with
  | some active => decide (active.color ≠ card.color) && decide (active.rank = card.rank + 1)
  | none => true

/-- `Column::receive` (src/src/board.rs lines 227-229): push at the end. -/
def Column.receive (c : Column) (card : Card) : Column := ⟨c.cards ++ [card]⟩

/-- A hand cell holding zero or one card (src/src/board.rs lines 238-240). -/
structure SpotInHand where
  card : Option Card
deriving DecidableEq, Repr

/-- `SpotInHand::new` (src/src/board.rs lines 243-245). -/
def SpotInHand.new (c : Card) : SpotInHand := ⟨some c⟩

/-- `SpotInHand::can_give_card` (src/src/board.rs lines 258-260). -/
def SpotInHand.can_give_card (s : SpotInHand) : Bool := s.card.isSome

/-- `SpotInHand::give_card` (src/src/board.rs lines 261-270); panics (`none`) when empty. -/
def SpotInHand.give_card (s : SpotInHand) : Option (Card × SpotInHand) :=
  match s.card with
  | some c => some (c, ⟨none⟩)
  | none => none

/-- `SpotInHand::can_receive` (src/src/board.rs lines 271-273): always false. -/
def SpotInHand.can_receive (_ : SpotInHand) (_ : Card) : Bool := false

/-- `SpotInHand::receive` (src/src/board.rs lines 274-276). -/
def SpotInHand.receive (_ : SpotInHand) (c : Card) : SpotInHand := ⟨some c⟩

/-- `SpotInHand::active_card` (src/src/board.rs lines 277-279). -/
def SpotInHand.active_card (s : SpotInHand) : Option Card := s.card

/-- The `Location` trait object (src/src/board.rs lines 139-145): the closed set of the
three implementing variants. -/
inductive Location
| foundation (f : Foundation)
| column (c : Column)
| spot (s : SpotInHand)
deriving DecidableEq, Repr

/-- Dynamic dispatch of `can_receive` over the three variants. -/
def Location.can_receive : Location → Card → Bool
| .foundation f, card => f.can_receive card
| .column c, card => c.can_receive card
| .spot s, card => s.can_receive card

/-- Dynamic dispatch of `can_give_card` over the three variants. -/
def Location.can_give_card : Location → Bool
| .foundation f => f.can_give_card
| .column c => c.can_give_card
| .spot s => s.can_give_card

/-- Dynamic dispatch of `active_card` over the three variants. -/
def Location.active_card : Location → Option Card
| .foundation f => f.active_card
| .column c => c.active_card
| .spot s => s.active_card

/-- Dynamic dispatch of `give_card` over the three variants; `none` = panic. -/
def Location.give_card : Location → Option (Card × Location)
| .foundation f => f.give_card.map fun p => (p.1, .foundation p.2)
| .column c => c.give_card.map fun p => (p.1, .column p.2)
| .spot s => s.give_card.map fun p => (p.1, .spot p.2)

/-- Dynamic dispatch of `receive` over the three variants. -/
def Location.receive : Location → Card → Location
| .foundation f, card => .foundation (f.receive card)
| .column c, card => .column (c.receive card)
| .spot s, card => .spot (s.receive card)

/-- `struct Movement` (src/src/board.rs lines 282-286): an (origin, destination) label pair. -/
structure Movement where
  origin : Char
  destination : Char
deriving DecidableEq, Repr

/-- The board: 4 foundations, 9 columns, 7 hand cells (src/src/board.rs lines 12-16);
the `StaticVec`s of fixed length are embedded as functions from `Fin`. -/
structure Board where
  foundations : Fin 4 → Foundation
  columns : Fin 9 → Column
  hand : Fin 7 → SpotInHand

/-- A label is valid when it lies in `'a'`..`'t'`, i.e. char codes 97..116
(src/src/board.rs lines 59-66). -/
def validLabel (label : Char) : Bool :=
  decide (97 ≤ label.toNat) && decide (label.toNat ≤ 116)

/-- `Board::location_at` (src/src/board.rs lines 59-66): `'a'..='d'` (codes 97..100) map
to foundations, `'e'..='m'` (101..109) to columns, `'n'..='t'` (110..116) to hand cells;
any other label panics (`none`). -/
def Board.location_at (b : Board) (label : Char) : Option Location :=
  if h : 97 ≤ label.toNat ∧ label.toNat ≤ 100 then
    some (.foundation (b.foundations ⟨label.toNat - 97, by omega⟩))
  else if h : 101 ≤ label.toNat ∧ label.toNat ≤ 109 then
    some (.column (b.columns ⟨label.toNat - 101, by omega⟩))
  else if h : 110 ≤ label.toNat ∧ label.toNat ≤ 116 then
    some (.spot (b.hand ⟨label.toNat - 110, by omega⟩))
  else none

/-- `self.mut_location_at(label).give_card()` (src/src/board.rs lines 50-57 and 69):
give the addressed location's card, updating that location in place. -/
def Board.give_at (b : Board) (label : Char) : Option (Card × Board) :=
  if h : 97 ≤ label.toNat ∧ label.toNat ≤ 100 then
    (b.foundations ⟨label.toNat - 97, by omega⟩).give_card.map fun p =>
      (p.1, { b with foundations := Function.update b.foundations ⟨label.toNat - 97, by omega⟩ p.2 })
  else if h : 101 ≤ label.toNat ∧ label.toNat ≤ 109 then
    (b.columns ⟨label.toNat - 101, by omega⟩).give_card.map fun p =>
      (p.1, { b with columns := Function.update b.columns ⟨label.toNat - 101, by omega⟩ p.2 })
  else if h : 110 ≤ label.toNat ∧ label.toNat ≤ 116 then
    (b.hand ⟨label.toNat - 110, by omega⟩).give_card.map fun p =>
      (p.1, { b with hand := Function.update b.hand ⟨label.toNat - 110, by omega⟩ p.2 })
  else none

/-- `self.mut_location_at(label).receive(card)` (src/src/board.rs lines 50-57 and 70):
deliver a card to the addressed location, updating it in place. -/
def Board.receive_at (b : Board) (label : Char) (card : Card) : Option Board :=
  if h : 97 ≤ label.toNat ∧ label.toNat ≤ 100 then
    some { b with foundations := Function.update b.foundations ⟨label.toNat - 97, by omega⟩ ((b.foundations ⟨label.toNat - 97, by omega⟩).receive card) }
  else if h : 101 ≤ label.toNat ∧ label.toNat ≤ 109 then
    some { b with columns := Function.update b.columns ⟨label.toNat - 101, by omega⟩ ((b.columns ⟨label.toNat - 101, by omega⟩).receive card) }
  else if h : 110 ≤ label.toNat ∧ label.toNat ≤ 116 then
    some { b with hand := Function.update b.hand ⟨label.toNat - 110, by omega⟩ ((b.hand ⟨label.toNat - 110, by omega⟩).receive card) }
  else none

/-- `Board::execute` (src/src/board.rs lines 68-71): give at the origin, then receive at
the destination; no legality re-check. `none` = panic somewhere inside. -/
def Board.execute (b : Board) (m : Movement) : Option Board :=
  match b.give_at m.origin with
  | none => none
  | some (card, b2) => b2.receive_at m.destination card

/-- `Board::permits` (src/src/board.rs lines 73-80). `none` = panic on an invalid label. -/
def Board.permits (b : Board) (m : Movement) : Option Bool :=
  match b.location_at m.origin, b.location_at m.destination with
  | some origin, some destination =>
      some (match origin.active_card with
            | some card => origin.can_give_card && destination.can_receive card
            | none => false)
  | _, _ => none

/-- `Board::permitted_moves` (src/src/board.rs lines 82-103): origins iterate over byte
labels `b'e'..=b't'` (codes 101..116), destinations over `b'a'..=b'm'` (97..109). -/
def Board.permitted_moves (b : Board) : List Movement :=
  ((List.range' 101 16).map fun o =>
    match b.location_at (Char.ofNat o) with
    | none => []
    | some origin =>
      match origin.active_card with
      | none => []
      | some card =>
        if origin.can_give_card then
          (List.range' 97 13).filterMap fun d =>
            match b.location_at (Char.ofNat d) with
            | none => none
            | some destination =>
              if destination.can_receive card then
                some ⟨Char.ofNat o, Char.ofNat d⟩
              else none
        else []).flatten

/-- `Board::victory_state` (src/src/board.rs lines 42-48): Won iff every foundation's
`top_rank.unwrap_or(0)` equals `MAX_RANK`. -/
def Board.victory_state (b : Board) : VictoryState :=
  if (List.finRange 4).all (fun i => (b.foundations i).top_rank.getD 0 == MAX_RANK) then
    VictoryState.Won
  else
    VictoryState.Ongoing

/-- Modelled from the spec: the `card` module's `Suit::iterator` (used by
`Board::new`, src/src/board.rs line 20) is not among the sources; the spec (section 3)
fixes the foundation suit order as Spades, Hearts, Diamonds, Clubs, the order the
legacy engine (src/src/main.rs lines 247-252) spells out. -/
def suitOrder : Fin 4 → Suit
| 0 => .Spades
| 1 => .Hearts
| 2 => .Diamonds
| 3 => .Clubs

/-- Modelled from the spec: the `deck` module is not among the sources; the spec
(section 6) says a deck is a shuffled sequence of all 52 distinct (suit, rank)
combinations with positional retrieval, matching `deck.deal(card_index)` in
src/src/board.rs. A deck is embedded as the card list. -/
abbrev Deck := List Card

/-- Modelled from the spec: positional card retrieval `deal(index)`. The default is
never reached for the in-range indices `Board::new` uses on a 52-card deck. -/
def Deck.deal (d : Deck) (i : Nat) : Card := d.getD i ⟨.Spades, 1⟩

/-- Cards consumed before (0-based) column `i`: columns 0..i-1 take 1+2+...+i cards
(`card_index` threading in src/src/board.rs lines 22-31). -/
def cardsBefore (i : Nat) : Nat := i * (i + 1) / 2

/-- `Board::new` (src/src/board.rs lines 18-40): foundations one per suit in iterator
order; 0-based column `i` receives the `i + 1` cards at deck positions
`cardsBefore i` onward, in order; the hand cells take deck positions 45..51, one each. -/
def Board.new (deck : Deck) : Board :=
  { foundations := fun i => Foundation.new (suitOrder i)
    columns := fun i =>
      (List.range (i.val + 1)).foldl
        (fun col k => col.receive (deck.deal (cardsBefore i.val + k))) Column.new
    hand := fun i => SpotInHand.new (deck.deal (45 + i.val)) }

/-- All cards on a board: the nine columns in label order (bottom card first), then the
seven hand cells in label order (empty cells contribute nothing). -/
def boardCards (b : Board) : List Card :=
  (b.columns ⟨0, by omega⟩).cards ++ ((b.columns ⟨1, by omega⟩).cards ++
    ((b.columns ⟨2, by omega⟩).cards ++ ((b.columns ⟨3, by omega⟩).cards ++
    ((b.columns ⟨4, by omega⟩).cards ++ ((b.columns ⟨5, by omega⟩).cards ++
    ((b.columns ⟨6, by omega⟩).cards ++ ((b.columns ⟨7, by omega⟩).cards ++
    ((b.columns ⟨8, by omega⟩).cards ++ ((b.hand ⟨0, by omega⟩).card.toList ++
    ((b.hand ⟨1, by omega⟩).card.toList ++ ((b.hand ⟨2, by omega⟩).card.toList ++
    ((b.hand ⟨3, by omega⟩).card.toList ++ ((b.hand ⟨4, by omega⟩).card.toList ++
    ((b.hand ⟨5, by omega⟩).card.toList ++ (b.hand ⟨6, by omega⟩).card.toList))))))))))))))

/-- The legacy engine's `Board::execute` (src/src/main.rs lines 306-312): re-validates
with `permits` and panics (`none`) when it does not hold, then performs the same
give/receive transfer as the modular engine (its other structures and methods are
textually identical to those of src/src/board.rs embedded above). -/
def Board.execute_legacy (b : Board) (m : Movement) : Option Board :=
  match b.permits m with
  | some true =>
      match b.give_at m.origin with
      | none => none
      | some (card, b2) => b2.receive_at m.destination card
  | _ => none

/-- A 52-card deck in a fixed order, for concrete witnesses. -/
def standardDeck : Deck :=
  (List.range 13).flatMap fun r =>
    [⟨Suit.Spades, r + 1⟩, ⟨Suit.Hearts, r + 1⟩, ⟨Suit.Diamonds, r + 1⟩, ⟨Suit.Clubs, r + 1⟩]

/-- A small concrete board for witnesses: column `e` holds the ace of spades, column `f`
holds the two of spades, everything else is empty. -/
def sampleBoard : Board :=
  { foundations := fun i => ⟨suitOrder i, none⟩
    columns := fun i =>
      if i = 0 then ⟨[⟨Suit.Spades, 1⟩]⟩
      else if i = 1 then ⟨[⟨Suit.Spades, 2⟩]⟩
      else ⟨[]⟩
    hand := fun _ => ⟨none⟩ }

/-- A concrete board one card short of victory: foundations a, b, c at rank 13, d at 12. -/
def nearWonBoard : Board :=
  { foundations := fun i => ⟨suitOrder i, if i = 3 then some 12 else some 13⟩
    columns := fun _ => ⟨[]⟩
    hand := fun _ => ⟨none⟩ }

lemma charToNat_ofNat {n : Nat} (h : n < 55296) : (Char.ofNat n).toNat = n := by
  have hv : n.isValidChar := Or.inl h
  simp [Char.ofNat, hv, Char.toNat, Char.ofNatAux, UInt32.toNat, BitVec.toNat_ofNatLt]

lemma charToNat_injective {c d : Char} (h : c.toNat = d.toNat) : c = d := by
  have hc := Char.ofNat_toNat c
  rw [h, Char.ofNat_toNat d] at hc
  exact hc.symm

lemma location_at_of_foundation_range (b : Board) (l : Char)
    (h : 97 ≤ l.toNat ∧ l.toNat ≤ 100) :
    b.location_at l = some (.foundation (b.foundations ⟨l.toNat - 97, by omega⟩)) := by
  unfold Board.location_at
  rw [dif_pos h]

lemma location_at_of_column_range (b : Board) (l : Char)
    (h : 101 ≤ l.toNat ∧ l.toNat ≤ 109) :
    b.location_at l = some (.column (b.columns ⟨l.toNat - 101, by omega⟩)) := by
  unfold Board.location_at
  rw [dif_neg (by omega), dif_pos h]

lemma location_at_of_spot_range (b : Board) (l : Char)
    (h : 110 ≤ l.toNat ∧ l.toNat ≤ 116) :
    b.location_at l = some (.spot (b.hand ⟨l.toNat - 110, by omega⟩)) := by
  unfold Board.location_at
  rw [dif_neg (by omega), dif_neg (by omega), dif_pos h]

lemma location_at_isSome_of_valid (b : Board) (l : Char) (h : validLabel l = true) :
    ∃ loc, b.location_at l = some loc := by
  have hl : 97 ≤ l.toNat ∧ l.toNat ≤ 116 := by
    unfold validLabel at h
    simp only [Bool.and_eq_true, decide_eq_true_eq] at h
    exact h
  by_cases h1 : l.toNat ≤ 100
  · exact ⟨_, location_at_of_foundation_range b l ⟨hl.1, h1⟩⟩
  · by_cases h2 : l.toNat ≤ 109
    · exact ⟨_, location_at_of_column_range b l ⟨by omega, h2⟩⟩
    · exact ⟨_, location_at_of_spot_range b l ⟨by omega, hl.2⟩⟩

lemma permits_eq_some_true_iff (b : Board) (m : Movement) :
    b.permits m = some true ↔
      ∃ o d card, b.location_at m.origin = some o ∧ b.location_at m.destination = some d ∧
        o.active_card = some card ∧ o.can_give_card = true ∧ d.can_receive card = true := by
  unfold Board.permits
  cases ho : b.location_at m.origin with
  | none => simp
  | some o =>
    cases hd : b.location_at m.destination with
    | none => simp
    | some d =>
      cases hac : o.active_card with
      | none => simp [hac]
      | some card =>
        simp only [hac, Option.some_inj, Bool.and_eq_true]
        constructor
        · rintro ⟨hg, hr⟩
          exact ⟨o, d, card, rfl, rfl, hac, hg, hr⟩
        · rintro ⟨o2, d2, card2, ho2, hd2, hac2, hg2, hr2⟩
          subst ho2
          subst hd2
          rw [hac, Option.some_inj] at hac2
          subst hac2
          exact ⟨hg2, hr2⟩

lemma Location.give_card_of_active {l : Location} {c : Card} (h : l.active_card = some c) :
    ∃ l2, l.give_card = some (c, l2) := by
  cases l with
  | foundation f =>
    cases hf : f.top_rank with
    | none => simp [Location.active_card, Foundation.active_card, hf] at h
    | some rank =>
      simp only [Location.active_card, Foundation.active_card, hf, Option.some_inj] at h
      refine ⟨.foundation ⟨f.suit, some (rank - 1)⟩, ?_⟩
      simp [Location.give_card, Foundation.give_card, hf, ← h]
  | column col =>
    simp only [Location.active_card, Column.active_card] at h
    refine ⟨.column ⟨col.cards.dropLast⟩, ?_⟩
    simp [Location.give_card, Column.give_card, h]
  | spot s =>
    simp only [Location.active_card, SpotInHand.active_card] at h
    refine ⟨.spot ⟨none⟩, ?_⟩
    simp [Location.give_card, SpotInHand.give_card, h]

lemma permits_origin_ne_destination {b : Board} {m : Movement}
    (h : b.permits m = some true) : m.origin ≠ m.destination := by
  intro e
  rw [permits_eq_some_true_iff] at h
  obtain ⟨o, d, card, ho, hd, hac, hg, hr⟩ := h
  rw [e, hd] at ho
  injection ho with ho
  subst ho
  cases d with
  | foundation f => simp [Location.can_give_card, Foundation.can_give_card] at hg
  | spot s => simp [Location.can_receive, SpotInHand.can_receive] at hr
  | column col =>
    simp only [Location.active_card] at hac
    simp only [Location.can_receive, Column.can_receive, hac, Bool.and_eq_true,
      decide_eq_true_eq] at hr
    exact hr.1 rfl

lemma foundations_mk (f : Fin 4 → Foundation) (c : Fin 9 → Column) (h : Fin 7 → SpotInHand) :
    (Board.mk f c h).foundations = f := rfl

lemma columns_mk (f : Fin 4 → Foundation) (c : Fin 9 → Column) (h : Fin 7 → SpotInHand) :
    (Board.mk f c h).columns = c := rfl

lemma hand_mk (f : Fin 4 → Foundation) (c : Fin 9 → Column) (h : Fin 7 → SpotInHand) :
    (Board.mk f c h).hand = h := rfl

lemma location_at_update_foundations (b : Board) (i : Fin 4) (f : Foundation) (l : Char)
    (h : l.toNat ≠ 97 + i.val) :
    Board.location_at { b with foundations := Function.update b.foundations i f } l
      = b.location_at l := by
  unfold Board.location_at
  by_cases h1 : 97 ≤ l.toNat ∧ l.toNat ≤ 100
  · rw [dif_pos h1, dif_pos h1]
    have hne : (⟨l.toNat - 97, by omega⟩ : Fin 4) ≠ i := by
      intro e
      have h2 : l.toNat - 97 = i.val := congrArg Fin.val e
      omega
    simp only [foundations_mk]
    rw [Function.update_noteq hne]
  · rw [dif_neg h1, dif_neg h1]

lemma location_at_update_columns (b : Board) (i : Fin 9) (col : Column) (l : Char)
    (h : l.toNat ≠ 101 + i.val) :
    Board.location_at { b with columns := Function.update b.columns i col } l
      = b.location_at l := by
  unfold Board.location_at
  by_cases h1 : 97 ≤ l.toNat ∧ l.toNat ≤ 100
  · rw [dif_pos h1, dif_pos h1]
  · rw [dif_neg h1, dif_neg h1]
    by_cases h2 : 101 ≤ l.toNat ∧ l.toNat ≤ 109
    · rw [dif_pos h2, dif_pos h2]
      have hne : (⟨l.toNat - 101, by omega⟩ : Fin 9) ≠ i := by
        intro e
        have h3 : l.toNat - 101 = i.val := congrArg Fin.val e
        omega
      simp only [columns_mk]
      rw [Function.update_noteq hne]
    · rw [dif_neg h2, dif_neg h2]

lemma location_at_update_hand (b : Board) (i : Fin 7) (s : SpotInHand) (l : Char)
    (h : l.toNat ≠ 110 + i.val) :
    Board.location_at { b with hand := Function.update b.hand i s } l
      = b.location_at l := by
  unfold Board.location_at
  by_cases h1 : 97 ≤ l.toNat ∧ l.toNat ≤ 100
  · rw [dif_pos h1, dif_pos h1]
  · rw [dif_neg h1, dif_neg h1]
    by_cases h2 : 101 ≤ l.toNat ∧ l.toNat ≤ 109
    · rw [dif_pos h2, dif_pos h2]
    · rw [dif_neg h2, dif_neg h2]
      by_cases h3 : 110 ≤ l.toNat ∧ l.toNat ≤ 116
      · rw [dif_pos h3, dif_pos h3]
        have hne : (⟨l.toNat - 110, by omega⟩ : Fin 7) ≠ i := by
          intro e
          have h4 : l.toNat - 110 = i.val := congrArg Fin.val e
          omega
        simp only [hand_mk]
        rw [Function.update_noteq hne]
      · rw [dif_neg h3, dif_neg h3]

lemma give_at_spec {b : Board} {l : Char} {o : Location} {c : Card} {o2 : Location}
    (hloc : b.location_at l = some o) (hgive : o.give_card = some (c, o2)) :
    ∃ b2, b.give_at l = some (c, b2) ∧ b2.location_at l = some o2 ∧
      ∀ l2 : Char, l2 ≠ l → b2.location_at l2 = b.location_at l2 := by
  have frame : ∀ l2 : Char, l2 ≠ l → l2.toNat ≠ l.toNat := by
    intro l2 hne he
    exact hne (charToNat_injective he)
  by_cases h1 : 97 ≤ l.toNat ∧ l.toNat ≤ 100
  · rw [location_at_of_foundation_range b l h1, Option.some_inj] at hloc
    subst hloc
    simp only [Location.give_card, Option.map_eq_some'] at hgive
    obtain ⟨⟨c1, f1⟩, hp, heq⟩ := hgive
    rw [Prod.mk.injEq] at heq
    obtain ⟨hc1, hf1⟩ := heq
    subst hc1
    refine ⟨{ b with foundations :=
      Function.update b.foundations ⟨l.toNat - 97, by omega⟩ f1 }, ?_, ?_, ?_⟩
    · unfold Board.give_at
      rw [dif_pos h1, hp]
      rfl
    · rw [location_at_of_foundation_range _ l h1]
      simp only [foundations_mk]
      rw [Function.update_same, hf1]
    · intro l2 hne
      refine location_at_update_foundations b _ f1 l2 ?_
      have := frame l2 hne
      show l2.toNat ≠ 97 + (l.toNat - 97)
      omega
  · by_cases h2 : 101 ≤ l.toNat ∧ l.toNat ≤ 109
    · rw [location_at_of_column_range b l h2, Option.some_inj] at hloc
      subst hloc
      simp only [Location.give_card, Option.map_eq_some'] at hgive
      obtain ⟨⟨c1, col1⟩, hp, heq⟩ := hgive
      rw [Prod.mk.injEq] at heq
      obtain ⟨hc1, hcol1⟩ := heq
      subst hc1
      refine ⟨{ b with columns :=
        Function.update b.columns ⟨l.toNat - 101, by omega⟩ col1 }, ?_, ?_, ?_⟩
      · unfold Board.give_at
        rw [dif_neg h1, dif_pos h2, hp]
        rfl
      · rw [location_at_of_column_range _ l h2]
        simp only [columns_mk]
        rw [Function.update_same, hcol1]
      · intro l2 hne
        refine location_at_update_columns b _ col1 l2 ?_
        have := frame l2 hne
        show l2.toNat ≠ 101 + (l.toNat - 101)
        omega
    · by_cases h3 : 110 ≤ l.toNat ∧ l.toNat ≤ 116
      · rw [location_at_of_spot_range b l h3, Option.some_inj] at hloc
        subst hloc
        simp only [Location.give_card, Option.map_eq_some'] at hgive
        obtain ⟨⟨c1, s1⟩, hp, heq⟩ := hgive
        rw [Prod.mk.injEq] at heq
        obtain ⟨hc1, hs1⟩ := heq
        subst hc1
        refine ⟨{ b with hand :=
          Function.update b.hand ⟨l.toNat - 110, by omega⟩ s1 }, ?_, ?_, ?_⟩
        · unfold Board.give_at
          rw [dif_neg h1, dif_neg h2, dif_pos h3, hp]
          rfl
        · rw [location_at_of_spot_range _ l h3]
          simp only [hand_mk]
          rw [Function.update_same, hs1]
        · intro l2 hne
          refine location_at_update_hand b _ s1 l2 ?_
          have := frame l2 hne
          show l2.toNat ≠ 110 + (l.toNat - 110)
          omega
      · rw [Board.location_at, dif_neg h1, dif_neg h2, dif_neg h3] at hloc
        exact absurd hloc (by simp)

lemma receive_at_spec {b : Board} {l : Char} {d : Location}
    (hloc : b.location_at l = some d) (c : Card) :
    ∃ b2, b.receive_at l c = some b2 ∧ b2.location_at l = some (d.receive c) ∧
      ∀ l2 : Char, l2 ≠ l → b2.location_at l2 = b.location_at l2 := by
  have frame : ∀ l2 : Char, l2 ≠ l → l2.toNat ≠ l.toNat := by
    intro l2 hne he
    exact hne (charToNat_injective he)
  by_cases h1 : 97 ≤ l.toNat ∧ l.toNat ≤ 100
  · rw [location_at_of_foundation_range b l h1, Option.some_inj] at hloc
    subst hloc
    refine ⟨{ b with foundations := Function.update b.foundations ⟨l.toNat - 97, by omega⟩ ((b.foundations ⟨l.toNat - 97, by omega⟩).receive c) }, ?_, ?_, ?_⟩
    · unfold Board.receive_at
      rw [dif_pos h1]
    · rw [location_at_of_foundation_range _ l h1]
      simp only [foundations_mk]
      rw [Function.update_same]
      rfl
    · intro l2 hne
      refine location_at_update_foundations b _ _ l2 ?_
      have := frame l2 hne
      show l2.toNat ≠ 97 + (l.toNat - 97)
      omega
  · by_cases h2 : 101 ≤ l.toNat ∧ l.toNat ≤ 109
    · rw [location_at_of_column_range b l h2, Option.some_inj] at hloc
      subst hloc
      refine ⟨{ b with columns := Function.update b.columns ⟨l.toNat - 101, by omega⟩ ((b.columns ⟨l.toNat - 101, by omega⟩).receive c) }, ?_, ?_, ?_⟩
      · unfold Board.receive_at
        rw [dif_neg h1, dif_pos h2]
      · rw [location_at_of_column_range _ l h2]
        simp only [columns_mk]
        rw [Function.update_same]
        rfl
      · intro l2 hne
        refine location_at_update_columns b _ _ l2 ?_
        have := frame l2 hne
        show l2.toNat ≠ 101 + (l.toNat - 101)
        omega
    · by_cases h3 : 110 ≤ l.toNat ∧ l.toNat ≤ 116
      · rw [location_at_of_spot_range b l h3, Option.some_inj] at hloc
        subst hloc
        refine ⟨{ b with hand := Function.update b.hand ⟨l.toNat - 110, by omega⟩ ((b.hand ⟨l.toNat - 110, by omega⟩).receive c) }, ?_, ?_, ?_⟩
        · unfold Board.receive_at
          rw [dif_neg h1, dif_neg h2, dif_pos h3]
        · rw [location_at_of_spot_range _ l h3]
          simp only [hand_mk]
          rw [Function.update_same]
          rfl
        · intro l2 hne
          refine location_at_update_hand b _ _ l2 ?_
          have := frame l2 hne
          show l2.toNat ≠ 110 + (l.toNat - 110)
          omega
      · rw [Board.location_at, dif_neg h1, dif_neg h2, dif_neg h3] at hloc
        exact absurd hloc (by simp)

/-- C1: for every board and movement whose labels are in the valid range a-t,
`permits` returns true iff the origin location has some active card, the origin's
`can_give_card` is true and the destination's `can_receive` of that card is true;
in particular `permits` returns false whenever the origin has no active card. -/
theorem permits_characterisation (b : Board) (m : Movement)
    (ho : validLabel m.origin = true) (hd : validLabel m.destination = true) :
    (b.permits m = some true ↔
      ∃ o d card, b.location_at m.origin = some o ∧ b.location_at m.destination = some d ∧
        o.active_card = some card ∧ o.can_give_card = true ∧ d.can_receive card = true) ∧
    (∀ o, b.location_at m.origin = some o → o.active_card = none →
      b.permits m = some false) := by
  refine ⟨permits_eq_some_true_iff b m, ?_⟩
  intro o hoeq hacn
  obtain ⟨dloc, hdeq⟩ := location_at_isSome_of_valid b m.destination hd
  simp [Board.permits, hoeq, hdeq, hacn]

/-- C10: the permits relation is irreflexive: a movement whose origin and destination
are the same valid label is never permitted. -/
theorem permits_irreflexive (b : Board) (l : Char) (h : validLabel l = true) :
    b.permits ⟨l, l⟩ ≠ some true := by
  intro hp
  exact permits_origin_ne_destination hp rfl

/-- C3: when `permits` holds, `execute` removes exactly the origin's active card from
the origin, inserts that same card into the destination, and leaves every other
location unchanged; the move is never partially applied. -/
theorem execute_transfers_exactly (b : Board) (m : Movement)
    (h : b.permits m = some true) :
    ∃ o o2 d card b2,
      b.location_at m.origin = some o ∧
      o.active_card = some card ∧
      o.give_card = some (card, o2) ∧
      b.location_at m.destination = some d ∧
      b.execute m = some b2 ∧
      b2.location_at m.origin = some o2 ∧
      b2.location_at m.destination = some (d.receive card) ∧
      (∀ l : Char, l ≠ m.origin → l ≠ m.destination →
        b2.location_at l = b.location_at l) := by
  have hne := permits_origin_ne_destination h
  rw [permits_eq_some_true_iff] at h
  obtain ⟨o, d, card, ho, hd, hac, hg, hr⟩ := h
  obtain ⟨o2, hgive⟩ := Location.give_card_of_active hac
  obtain ⟨bmid, hgat, hmid_o, hmid_frame⟩ := give_at_spec ho hgive
  have hmid_d : bmid.location_at m.destination = some d := by
    rw [hmid_frame m.destination (Ne.symm hne), hd]
  obtain ⟨b2, hrat, hb2_d, hb2_frame⟩ := receive_at_spec hmid_d card
  refine ⟨o, o2, d, card, b2, ho, hac, hgive, hd, ?_, ?_, hb2_d, ?_⟩
  · unfold Board.execute
    rw [hgat]
    exact hrat
  · rw [hb2_frame m.origin hne, hmid_o]
  · intro l hlo hld
    rw [hb2_frame l hld, hmid_frame l hlo]

/-- C4: a foundation accepts a card iff the card's suit equals the foundation's suit
and its rank is the current top rank plus one (rank 1 when the foundation is empty);
all other (suit, rank) combinations are rejected. -/
theorem foundation_acceptance (f : Foundation) (c : Card) :
    f.can_receive c = true ↔
      c.suit = f.suit ∧
      ((f.top_rank = none ∧ c.rank = 1) ∨ ∃ r, f.top_rank = some r ∧ c.rank = r + 1) := by
  unfold Foundation.can_receive Foundation.next_rank
  cases hf : f.top_rank with
  | none => simp [hf]
  | some r => simp [hf]

/-- C5: an empty column accepts any card; a nonempty column accepts a card iff the
card's color differs from the active card's color and the active card's rank is the
card's rank plus one (i.e. the card's rank is the active rank minus one). -/
theorem column_acceptance (col : Column) (c : Card) :
    col.can_receive c = true ↔
      (col.cards = [] ∨
        ∃ a, col.active_card = some a ∧ a.color ≠ c.color ∧ a.rank = c.rank + 1) := by
  unfold Column.can_receive
  cases hac : col.active_card with
  | none =>
    have hnil : col.cards = [] := by
      rw [Column.active_card, List.getLast?_eq_none_iff] at hac
      exact hac
    simp [hac, hnil]
  | some a =>
    have hne : col.cards ≠ [] := by
      intro e
      rw [Column.active_card, e] at hac
      simp at hac
    simp [hac, hne]

/-- C6: a hand cell never accepts a card in any state; once its card is given away,
the cell has no active card and `can_give_card` is false, giving again just panics,
and only `receive` can refill the cell. -/
theorem spot_in_hand_law (s : SpotInHand) (c : Card) (h : s.card = some c) :
    (∀ c2, s.can_receive c2 = false) ∧
    s.give_card = some (c, ⟨none⟩) ∧
    SpotInHand.active_card ⟨none⟩ = none ∧
    SpotInHand.can_give_card ⟨none⟩ = false ∧
    SpotInHand.give_card ⟨none⟩ = none ∧
    (∀ c2, SpotInHand.can_receive ⟨none⟩ c2 = false) ∧
    (∀ c2, (SpotInHand.receive ⟨none⟩ c2).card = some c2) := by
  refine ⟨fun c2 => rfl, ?_, rfl, rfl, rfl, fun c2 => rfl, fun c2 => rfl⟩
  simp [SpotInHand.give_card, h]

/-- C7: `victory_state` is Won iff all four foundations have top rank 13; with three
foundations at 13 and the fourth at 12 it is Ongoing, and becomes Won as soon as the
fourth foundation receives its rank-13 card. -/
theorem victory_state_law (b : Board) :
    (b.victory_state = VictoryState.Won ↔
      ∀ i : Fin 4, (b.foundations i).top_rank.getD 0 = MAX_RANK) ∧
    (∀ j : Fin 4,
      (∀ i : Fin 4, i ≠ j → (b.foundations i).top_rank = some 13) →
      (b.foundations j).top_rank = some 12 →
      b.victory_state = VictoryState.Ongoing ∧
      ∀ c : Card, c.rank = 13 →
        Board.victory_state { b with foundations := Function.update b.foundations j ((b.foundations j).receive c) } = VictoryState.Won) := by
  have hiff : ∀ b2 : Board, b2.victory_state = VictoryState.Won ↔
      ∀ i : Fin 4, (b2.foundations i).top_rank.getD 0 = MAX_RANK := by
    intro b2
    unfold Board.victory_state
    by_cases hall :
        (List.finRange 4).all (fun i => (b2.foundations i).top_rank.getD 0 == MAX_RANK) = true
    · rw [if_pos hall]
      simp only [List.all_eq_true, beq_iff_eq] at hall
      exact iff_of_true rfl (fun i => hall i (List.mem_finRange i))
    · rw [if_neg hall]
      constructor
      · intro e
        exact absurd e (by simp)
      · intro hforall
        exfalso
        apply hall
        simp only [List.all_eq_true, beq_iff_eq]
        exact fun i _ => hforall i
  refine ⟨hiff b, ?_⟩
  intro j hothers hj
  constructor
  · cases hv : b.victory_state with
    | Ongoing => rfl
    | Won =>
      have h13 := (hiff b).mp hv j
      rw [hj] at h13
      simp [MAX_RANK] at h13
  · intro c hc
    rw [hiff]
    intro i
    by_cases hij : i = j
    · subst hij
      simp only [foundations_mk, Function.update_same, Foundation.receive, hc]
      rfl
    · simp only [foundations_mk, Function.update_noteq hij]
      rw [hothers i hij]
      rfl

/-- C9: the legacy engine re-validates the movement inside `execute` and fails fatally
when `permits` does not hold, while the modular engine's `execute` performs no
legality re-check (it can transfer even when `permits` is false); when `permits`
holds the two perform the same transfer. -/
theorem engine_validation_contrast :
    (∀ (b : Board) (m : Movement), b.permits m ≠ some true → b.execute_legacy m = none) ∧
    (∀ (b : Board) (m : Movement), b.permits m = some true →
      b.execute_legacy m = b.execute m) ∧
    (∃ (b : Board) (m : Movement), b.permits m = some false ∧
      (b.execute m).isSome = true) := by
  refine ⟨?_, ?_, ?_⟩
  · intro b m h
    unfold Board.execute_legacy
    cases hp : b.permits m with
    | none => rfl
    | some v =>
      cases v with
      | true => exact absurd hp h
      | false => rfl
  · intro b m h
    unfold Board.execute_legacy Board.execute
    rw [h]
  · exact ⟨sampleBoard, ⟨'e', 'f'⟩, by decide, by decide⟩

lemma mem_permitted_moves_iff (b : Board) (m : Movement) :
    m ∈ b.permitted_moves ↔
      (101 ≤ m.origin.toNat ∧ m.origin.toNat ≤ 116) ∧
      (97 ≤ m.destination.toNat ∧ m.destination.toNat ≤ 109) ∧
      b.permits m = some true := by
  unfold Board.permitted_moves
  rw [List.mem_flatten]
  constructor
  · rintro ⟨lst, hlst, hm⟩
    rw [List.mem_map] at hlst
    obtain ⟨o, ho_mem, rfl⟩ := hlst
    rw [List.mem_range'_1] at ho_mem
    have hoval : (Char.ofNat o).toNat = o := charToNat_ofNat (by omega)
    obtain ⟨oloc, holoc⟩ := location_at_isSome_of_valid b (Char.ofNat o) (by
      unfold validLabel
      rw [hoval]
      simp only [Bool.and_eq_true, decide_eq_true_eq]
      omega)
    simp only [holoc] at hm
    cases hac : oloc.active_card with
    | none => simp [hac] at hm
    | some card =>
      simp only [hac] at hm
      by_cases hg : oloc.can_give_card = true
      · simp only [hg, if_true] at hm
        rw [List.mem_filterMap] at hm
        obtain ⟨d, hd_mem, hgd⟩ := hm
        rw [List.mem_range'_1] at hd_mem
        have hdval : (Char.ofNat d).toNat = d := charToNat_ofNat (by omega)
        obtain ⟨dloc, hdloc⟩ := location_at_isSome_of_valid b (Char.ofNat d) (by
          unfold validLabel
          rw [hdval]
          simp only [Bool.and_eq_true, decide_eq_true_eq]
          omega)
        simp only [hdloc] at hgd
        by_cases hr : dloc.can_receive card = true
        · simp only [hr, if_true, Option.some_inj] at hgd
          subst hgd
          refine ⟨⟨by simpa [hoval] using ho_mem.1, by simp [hoval]; omega⟩,
            ⟨by simpa [hdval] using hd_mem.1, by simp [hdval]; omega⟩, ?_⟩
          rw [permits_eq_some_true_iff]
          exact ⟨oloc, dloc, card, holoc, hdloc, hac, hg, hr⟩
        · simp [hr] at hgd
      · simp [hg] at hm
  · rintro ⟨⟨ho1, ho2⟩, ⟨hd1, hd2⟩, hperm⟩
    rw [permits_eq_some_true_iff] at hperm
    obtain ⟨oloc, dloc, card, holoc, hdloc, hac, hg, hr⟩ := hperm
    refine ⟨_, List.mem_map.mpr ⟨m.origin.toNat,
      List.mem_range'_1.mpr ⟨ho1, by omega⟩, rfl⟩, ?_⟩
    rw [Char.ofNat_toNat]
    simp only [holoc, hac, hg, if_true]
    rw [List.mem_filterMap]
    refine ⟨m.destination.toNat, List.mem_range'_1.mpr ⟨hd1, by omega⟩, ?_⟩
    rw [Char.ofNat_toNat]
    simp only [hdloc, hr, if_true]

/-- C2: `permitted_moves` is sound and complete for `permits` over the fixed label
ranges: every returned movement has origin in e-t, destination in a-m and is
permitted, and every such pair not returned is not permitted. -/
theorem permitted_moves_sound_complete (b : Board) :
    (∀ m ∈ b.permitted_moves,
      (101 ≤ m.origin.toNat ∧ m.origin.toNat ≤ 116) ∧
      (97 ≤ m.destination.toNat ∧ m.destination.toNat ≤ 109) ∧
      b.permits m = some true) ∧
    (∀ m : Movement,
      101 ≤ m.origin.toNat → m.origin.toNat ≤ 116 →
      97 ≤ m.destination.toNat → m.destination.toNat ≤ 109 →
      m ∉ b.permitted_moves → b.permits m ≠ some true) := by
  constructor
  · intro m hm
    exact (mem_permitted_moves_iff b m).mp hm
  · intro m h1 h2 h3 h4 hnot hperm
    exact hnot ((mem_permitted_moves_iff b m).mpr ⟨⟨h1, h2⟩, ⟨h3, h4⟩, hperm⟩)

lemma foldl_receive_cards (deck : Deck) (s : Nat) (ks : List Nat) (col : Column) :
    (ks.foldl (fun c k => c.receive (deck.deal (s + k))) col).cards
      = col.cards ++ ks.map (fun k => deck.deal (s + k)) := by
  induction ks generalizing col with
  | nil => simp
  | cons k ks ih =>
    rw [List.foldl_cons, ih, List.map_cons]
    simp [Column.receive, List.append_assoc]

lemma map_deal_range (d : Deck) (s n : Nat) (h : s + n ≤ d.length) :
    (List.range n).map (fun k => d.deal (s + k)) = (d.drop s).take n := by
  apply List.ext_getElem
  · simp only [List.length_map, List.length_range, List.length_take, List.length_drop]
    omega
  · intro j h1 h2
    have hj : j < n := by simpa using h1
    simp only [List.getElem_map, List.getElem_range, Deck.deal]
    rw [List.getElem_take, List.getElem_drop]
    rw [List.getD_eq_getElem d _ (by omega)]

lemma new_columns_cards (d : Deck) (h : d.length = 52) (i : Fin 9) :
    ((Board.new d).columns i).cards = (d.drop (cardsBefore i.val)).take (i.val + 1) := by
  have hb : cardsBefore i.val + (i.val + 1) ≤ 52 := by
    fin_cases i <;> decide
  show ((List.range (i.val + 1)).foldl
    (fun col k => col.receive (d.deal (cardsBefore i.val + k))) Column.new).cards = _
  rw [foldl_receive_cards, map_deal_range d _ _ (by omega)]
  simp [Column.new]

lemma new_columns_cards_nat (d : Deck) (h : d.length = 52) (n : Nat) (hn : n < 9) :
    ((Board.new d).columns ⟨n, hn⟩).cards = (d.drop (cardsBefore n)).take (n + 1) :=
  new_columns_cards d h ⟨n, hn⟩

lemma new_hand_card (d : Deck) (i : Fin 7) :
    ((Board.new d).hand i).card = some (d.deal (45 + i.val)) := rfl

lemma new_hand_card_nat (d : Deck) (n : Nat) (hn : n < 7) :
    ((Board.new d).hand ⟨n, hn⟩).card = some (d.deal (45 + n)) :=
  new_hand_card d ⟨n, hn⟩

lemma new_foundations_top (d : Deck) (i : Fin 4) :
    ((Board.new d).foundations i).top_rank = none := rfl

lemma boardCards_new (d : Deck) (h : d.length = 52) : boardCards (Board.new d) = d := by
  unfold boardCards
  rw [new_columns_cards_nat d h 0 (by omega), new_columns_cards_nat d h 1 (by omega),
    new_columns_cards_nat d h 2 (by omega), new_columns_cards_nat d h 3 (by omega),
    new_columns_cards_nat d h 4 (by omega), new_columns_cards_nat d h 5 (by omega),
    new_columns_cards_nat d h 6 (by omega), new_columns_cards_nat d h 7 (by omega),
    new_columns_cards_nat d h 8 (by omega)]
  rw [new_hand_card_nat d 0 (by omega), new_hand_card_nat d 1 (by omega),
    new_hand_card_nat d 2 (by omega), new_hand_card_nat d 3 (by omega),
    new_hand_card_nat d 4 (by omega), new_hand_card_nat d 5 (by omega),
    new_hand_card_nat d 6 (by omega)]
  have htail : [d.deal 45, d.deal 46, d.deal 47, d.deal 48, d.deal 49, d.deal 50,
      d.deal 51] = d.drop 45 := by
    have hm := map_deal_range d 45 7 (by omega)
    have hr7 : List.range 7 = [0, 1, 2, 3, 4, 5, 6] := by decide
    rw [hr7] at hm
    rw [List.take_of_length_le (by rw [List.length_drop, h])] at hm
    simp only [List.map_cons, List.map_nil] at hm
    norm_num at hm
    exact hm
  have s8 : (d.drop 36).take 9 ++ d.drop 45 = d.drop 36 := by
    have e : d.drop 45 = (d.drop 36).drop 9 := by rw [List.drop_drop]
    rw [e, List.take_append_drop]
  have s7 : (d.drop 28).take 8 ++ d.drop 36 = d.drop 28 := by
    have e : d.drop 36 = (d.drop 28).drop 8 := by rw [List.drop_drop]
    rw [e, List.take_append_drop]
  have s6 : (d.drop 21).take 7 ++ d.drop 28 = d.drop 21 := by
    have e : d.drop 28 = (d.drop 21).drop 7 := by rw [List.drop_drop]
    rw [e, List.take_append_drop]
  have s5 : (d.drop 15).take 6 ++ d.drop 21 = d.drop 15 := by
    have e : d.drop 21 = (d.drop 15).drop 6 := by rw [List.drop_drop]
    rw [e, List.take_append_drop]
  have s4 : (d.drop 10).take 5 ++ d.drop 15 = d.drop 10 := by
    have e : d.drop 15 = (d.drop 10).drop 5 := by rw [List.drop_drop]
    rw [e, List.take_append_drop]
  have s3 : (d.drop 6).take 4 ++ d.drop 10 = d.drop 6 := by
    have e : d.drop 10 = (d.drop 6).drop 4 := by rw [List.drop_drop]
    rw [e, List.take_append_drop]
  have s2 : (d.drop 3).take 3 ++ d.drop 6 = d.drop 3 := by
    have e : d.drop 6 = (d.drop 3).drop 3 := by rw [List.drop_drop]
    rw [e, List.take_append_drop]
  have s1 : (d.tail).take 2 ++ d.drop 3 = d.tail := by
    have e : d.drop 3 = (d.tail).drop 2 := by rw [← List.drop_one, List.drop_drop]
    rw [e, List.take_append_drop]
  have s0 : d.take 1 ++ d.tail = d := by
    rw [← List.drop_one]
    exact List.take_append_drop 1 d
  norm_num [cardsBefore]
  rw [htail, s8, s7, s6, s5, s4, s3, s2, s1, s0]

/-- C8: constructing a board from a 52-card deck deals the columns in label order with
sizes 1..9 from consecutive deck positions, fills the 7 hand cells with the remaining 7
cards in order, leaves the foundations empty, and every deck card appears exactly once
across the whole board. -/
theorem board_new_deal (d : Deck) (h : d.length = 52) :
    (∀ i : Fin 9, ((Board.new d).columns i).cards
      = (d.drop (cardsBefore i.val)).take (i.val + 1)) ∧
    (∀ i : Fin 9, ((Board.new d).columns i).cards.length = i.val + 1) ∧
    (∀ i : Fin 7, ((Board.new d).hand i).card = some (d.deal (45 + i.val))) ∧
    (∀ i : Fin 4, ((Board.new d).foundations i).top_rank = none) ∧
    boardCards (Board.new d) = d ∧
    (d.Nodup → ∀ c ∈ d, (boardCards (Board.new d)).count c = 1) := by
  refine ⟨new_columns_cards d h, ?_, new_hand_card d, new_foundations_top d,
    boardCards_new d h, ?_⟩
  · intro i
    rw [new_columns_cards d h i]
    have hb : cardsBefore i.val + (i.val + 1) ≤ 52 := by
      fin_cases i <;> decide
    simp only [List.length_take, List.length_drop, h]
    omega
  · intro hnod c hc
    rw [boardCards_new d h]
    exact List.count_eq_one_of_mem hnod hc

/-- Witness for C1: the characterisation applied on a concrete board and movement. -/
theorem permits_characterisation_witness :
    sampleBoard.permits ⟨'e', 'a'⟩ = some true :=
  (permits_characterisation sampleBoard ⟨'e', 'a'⟩ (by decide) (by decide)).1.mpr
    ⟨Location.column ⟨[⟨Suit.Spades, 1⟩]⟩, Location.foundation ⟨Suit.Spades, none⟩,
      ⟨Suit.Spades, 1⟩, by decide, by decide, by decide, by decide, by decide⟩

/-- Witness for C2: soundness applied to a returned movement and completeness applied
to an in-range pair that is not returned, on a concrete board. -/
theorem permitted_moves_sound_complete_witness :
    ((101 ≤ ('e' : Char).toNat ∧ ('e' : Char).toNat ≤ 116) ∧
      (97 ≤ ('a' : Char).toNat ∧ ('a' : Char).toNat ≤ 109) ∧
      sampleBoard.permits ⟨'e', 'a'⟩ = some true) ∧
    sampleBoard.permits ⟨'e', 'f'⟩ ≠ some true :=
  ⟨(permitted_moves_sound_complete sampleBoard).1 ⟨'e', 'a'⟩ (by decide),
   (permitted_moves_sound_complete sampleBoard).2 ⟨'e', 'f'⟩ (by decide) (by decide)
     (by decide) (by decide) (by decide)⟩

/-- Witness for C3: the execute specification applied on a concrete board and a
permitted movement. -/
theorem execute_transfers_exactly_witness :
    sampleBoard.permits ⟨'e', 'a'⟩ = some true ∧
    (sampleBoard.execute ⟨'e', 'a'⟩).isSome = true := by
  refine ⟨by decide, ?_⟩
  obtain ⟨o, o2, dd, card, b2, _, _, _, _, hex, _, _, _⟩ :=
    execute_transfers_exactly sampleBoard ⟨'e', 'a'⟩ (by decide)
  rw [hex]
  rfl

/-- Witness for C6: the hand-cell law applied to a concrete occupied cell. -/
theorem spot_in_hand_law_witness :
    (SpotInHand.new ⟨Suit.Spades, 1⟩).can_receive ⟨Suit.Hearts, 5⟩ = false ∧
    (SpotInHand.new ⟨Suit.Spades, 1⟩).give_card = some (⟨Suit.Spades, 1⟩, ⟨none⟩) ∧
    SpotInHand.can_give_card ⟨none⟩ = false :=
  ⟨(spot_in_hand_law (SpotInHand.new ⟨Suit.Spades, 1⟩) ⟨Suit.Spades, 1⟩ rfl).1 _,
   (spot_in_hand_law (SpotInHand.new ⟨Suit.Spades, 1⟩) ⟨Suit.Spades, 1⟩ rfl).2.1,
   (spot_in_hand_law (SpotInHand.new ⟨Suit.Spades, 1⟩) ⟨Suit.Spades, 1⟩ rfl).2.2.2.1⟩

/-- Witness for C7: three foundations at 13 and one at 12 is Ongoing, and receiving
the last king wins, on a concrete board. -/
theorem victory_state_law_witness :
    nearWonBoard.victory_state = VictoryState.Ongoing ∧
    Board.victory_state { nearWonBoard with foundations := Function.update nearWonBoard.foundations 3 ((nearWonBoard.foundations 3).receive ⟨Suit.Clubs, 13⟩) } = VictoryState.Won :=
  ⟨((victory_state_law nearWonBoard).2 3 (by decide) (by decide)).1,
   ((victory_state_law nearWonBoard).2 3 (by decide) (by decide)).2 ⟨Suit.Clubs, 13⟩ rfl⟩

/-- Witness for C8: the deal specification applied to a concrete ordered deck. -/
theorem board_new_deal_witness :
    boardCards (Board.new standardDeck) = standardDeck ∧
    ((Board.new standardDeck).columns ⟨4, by omega⟩).cards.length = 5 ∧
    ((Board.new standardDeck).hand ⟨0, by omega⟩).card = some (standardDeck.deal 45) ∧
    ((Board.new standardDeck).foundations ⟨2, by omega⟩).top_rank = none ∧
    (boardCards (Board.new standardDeck)).count ⟨Suit.Spades, 1⟩ = 1 :=
  ⟨(board_new_deal standardDeck (by decide)).2.2.2.2.1,
   (board_new_deal standardDeck (by decide)).2.1 ⟨4, by omega⟩,
   (board_new_deal standardDeck (by decide)).2.2.1 ⟨0, by omega⟩,
   (board_new_deal standardDeck (by decide)).2.2.2.1 ⟨2, by omega⟩,
   (board_new_deal standardDeck (by decide)).2.2.2.2.2 (by decide) ⟨Suit.Spades, 1⟩
     (by decide)⟩

/-- Witness for C9: on a concrete board, the legacy engine rejects a forbidden move
fatally and agrees with the modular engine on a permitted one. -/
theorem engine_validation_contrast_witness :
    sampleBoard.execute_legacy ⟨'e', 'f'⟩ = none ∧
    sampleBoard.execute_legacy ⟨'e', 'a'⟩ = sampleBoard.execute ⟨'e', 'a'⟩ :=
  ⟨engine_validation_contrast.1 sampleBoard ⟨'e', 'f'⟩ (by decide),
   engine_validation_contrast.2.1 sampleBoard ⟨'e', 'a'⟩ (by decide)⟩

/-- Witness for C10: irreflexivity at a concrete board and label. -/
theorem permits_irreflexive_witness :
    sampleBoard.permits ⟨'f', 'f'⟩ ≠ some true :=
  permits_irreflexive sampleBoard 'f' (by decide)

end KingAlbert
